import Mathlib

/-!
Shallow embedding of `mcp47feb.c`, a driver for the MCP47FEB dual-channel
I2C DAC layered on the STM32 HAL.

Modelling conventions:
* Machine integers are `Nat` with explicit `% 2^w` at the points where the C
  code converts to a narrower unsigned type (`uint8_t` parameters and locals,
  `uint16_t` parameters).  `int`-typed channel selectors are `Int` (they are
  only ever compared against 0).
* Bus I/O (`HAL_I2C_Master_Transmit` / `HAL_I2C_Master_Receive`) is modelled
  as a trace of events.  A transmit records the 8-bit bus address and the
  bytes sent; a receive records the address and the byte count requested.
* The device on the other end of the bus is an oracle `Dev` mapping the
  read-select command byte most recently transmitted to the two bytes the
  subsequent 2-byte receive stores into the driver's buffer.  Every function
  that reads the device takes the oracle as an explicit argument.
* Functions that write through their `MCP47FEB_TypeDef *dac` pointer
  (`MCP47FEB_Init`) — or that a caller might suspect of doing so
  (`MCP47FEB_LockSALCK`, `MCP47FEB_UnlockSALCK`) — return the final value of
  `*dac` as the first component of their result, so that (non-)mutation of
  the handle is a provable statement rather than an artefact of the
  embedding.
-/

/-- Register/command constants from the top of `mcp47feb.c`. -/
def READ : Nat := 0x06

def WRITE : Nat := 0x00

def DAC0_REG : Nat := 0x00

def DAC1_REG : Nat := 0x01

def VREF_REG : Nat := 0x08

def PD_REG : Nat := 0x09

def GAIN_REG : Nat := 0x0A

def WL_REG : Nat := 0x0B

def DAC0_EP_REG : Nat := 0x10

def DAC1_EP_REG : Nat := 0x11

def VREF_EP_REG : Nat := 0x18

def PD_EP_REG : Nat := 0x19

def GAIN_EP_REG : Nat := 0x1A

/-- Constant `#define SALCK 0xD0` — base of the SALCK lock-control command byte space. -/
def SALCK : Nat := 0xD0

/-- Constant `#define UNLOCK_SALCK 0x02`. -/
def UNLOCK_SALCK : Nat := 0x02

/-- Constant `#define LOCK_SALCK 0x04`. -/
def LOCK_SALCK : Nat := 0x04

/-- Constant `#define word(x,y) ((x << 8) | y)`. -/
def word (x y : Nat) : Nat := (x <<< 8) ||| y

/-- One bus transaction as issued by the driver. -/
inductive Ev where
  | tx (addr : Nat) (bytes : List Nat)
  | rx (addr : Nat) (count : Nat)
  deriving DecidableEq, Repr

/-- Device oracle: the two bytes received after transmitting a given
read-select command byte. -/
def Dev : Type := Nat → Nat × Nat

/-- Handle type `MCP47FEB_TypeDef`: bus address (`uint8_t devAddr`) plus an opaque
reference to the I2C transport (`I2C_HandleTypeDef *hi2c`). -/
structure MCP47FEB_TypeDef where
  devAddr : Nat
  hi2c : Nat
  deriving DecidableEq, Repr

/-- Model of `MCP47FEB_Init`: stores `devAddr` (truncated to `uint8_t`) and the
transport into `*dac`, ignoring the handle's old contents; the empty trace
records that no bus I/O happens. -/
def MCP47FEB_Init (_dac : MCP47FEB_TypeDef) (devAddr : Nat) (hi2c : Nat) :
    MCP47FEB_TypeDef × List Ev :=
  ({ devAddr := devAddr % 256, hi2c := hi2c }, [])

/-- Model of `_ReadAddr`: transmit the one command byte `READ | (REG << 3)`
(truncated to `uint8_t`), then receive 2 bytes into the buffer.  Returns
(buffer[0], buffer[1]) and the trace. -/
def _ReadAddr (dac : MCP47FEB_TypeDef) (REG : Nat) (dev : Dev) :
    (Nat × Nat) × List Ev :=
  let readReg := (READ ||| ((REG % 256) <<< 3)) % 256
  (((dev readReg).1 % 256, (dev readReg).2 % 256),
   [Ev.tx (dac.devAddr <<< 1) [readReg], Ev.rx (dac.devAddr <<< 1) 2])

/-- Model of `_ReadEpAddr`: same as `_ReadAddr` with bit 7 of the command byte set to
select the non-volatile (EEPROM) mirror bank. -/
def _ReadEpAddr (dac : MCP47FEB_TypeDef) (REG : Nat) (dev : Dev) :
    (Nat × Nat) × List Ev :=
  let readReg := (0x80 ||| (READ ||| ((REG % 256) <<< 3))) % 256
  (((dev readReg).1 % 256, (dev readReg).2 % 256),
   [Ev.tx (dac.devAddr <<< 1) [readReg], Ev.rx (dac.devAddr <<< 1) 2])

/-- Model of `_FastWrite`: transmit 3 bytes — command `(REG << 3) | WRITE` (truncated
to `uint8_t`), then the high byte and low byte of the `uint16_t` data. -/
def _FastWrite (dac : MCP47FEB_TypeDef) (REG : Nat) (DATA : Nat) : List Ev :=
  let d := DATA % 65536
  [Ev.tx (dac.devAddr <<< 1)
    [(((REG % 256) <<< 3) ||| WRITE) % 256, (d >>> 8) &&& 0xFF, d &&& 0xFF]]

/-- Model of `_WriteAddr`: transmit 3 bytes — command `REG | WRITE` (no shift); for
the gain register the data byte sits at payload position 1 and position 2 is
zero, for every other register position 1 is zero and the data byte sits at
position 2. -/
def _WriteAddr (dac : MCP47FEB_TypeDef) (REG : Nat) (data : Nat) : List Ev :=
  let r := REG % 256
  let d := data % 256
  if r = GAIN_REG then
    [Ev.tx (dac.devAddr <<< 1) [r ||| WRITE, d, 0]]
  else
    [Ev.tx (dac.devAddr <<< 1) [r ||| WRITE, 0, d]]

/-- Model of `MCP47FEB_UnlockSALCK`: addressed write of data 0 with command byte
`SALCK | UNLOCK_SALCK` to the handle's own address.  `*dac` is not written,
so the handle comes back unchanged. -/
def MCP47FEB_UnlockSALCK (dac : MCP47FEB_TypeDef) :
    MCP47FEB_TypeDef × List Ev :=
  (dac, _WriteAddr dac (SALCK ||| UNLOCK_SALCK) 0)

/-- Model of `MCP47FEB_LockSALCK`: builds a temporary handle `BIAS_DAC` carrying the
new address (a `uint8_t` parameter) and the caller's transport, then issues
the same `SALCK | UNLOCK_SALCK` addressed write through it.  The caller's
`*dac` is not written. -/
def MCP47FEB_LockSALCK (dac : MCP47FEB_TypeDef) (addr : Nat) :
    MCP47FEB_TypeDef × List Ev :=
  let BIAS_DAC : MCP47FEB_TypeDef := { devAddr := addr % 256, hi2c := dac.hi2c }
  (dac, _WriteAddr BIAS_DAC (SALCK ||| UNLOCK_SALCK) 0)

/-- Model of `MCP47FEB_GetPowerDown`: read the PD register, unpack bits 0–1 as
channel 0 and bits 2–3 as channel 1 of `readBuffer[1]`, select by
`channel == 0`. -/
def MCP47FEB_GetPowerDown (dac : MCP47FEB_TypeDef) (dev : Dev)
    (channel : Int) : Nat × List Ev :=
  let r := _ReadAddr dac PD_REG dev
  let _powerDown0 := r.1.2 &&& 0x03
  let _powerDown1 := (r.1.2 &&& 0x0C) >>> 2
  ((if channel = 0 then _powerDown0 else _powerDown1), r.2)

/-- Model of `MCP47FEB_SetPowerDown`: addressed write of `val0 | val1 << 2` to the PD
register.  The C parameters are `int`; the model covers the nonnegative
values (the `uint8_t` truncation of the packed byte happens in
`_WriteAddr`). -/
def MCP47FEB_SetPowerDown (dac : MCP47FEB_TypeDef) (val0 val1 : Nat) :
    List Ev :=
  _WriteAddr dac PD_REG (val0 ||| (val1 <<< 2))

/-- Model of `MCP47FEB_GetPowerDownEp`: like `MCP47FEB_GetPowerDown`, reading the
EEPROM mirror bank. -/
def MCP47FEB_GetPowerDownEp (dac : MCP47FEB_TypeDef) (dev : Dev)
    (channel : Int) : Nat × List Ev :=
  let r := _ReadEpAddr dac PD_REG dev
  let _powerDownEp0 := r.1.2 &&& 0x03
  let _powerDownEp1 := (r.1.2 &&& 0x0C) >>> 2
  ((if channel = 0 then _powerDownEp0 else _powerDownEp1), r.2)

/-- Model of `MCP47FEB_GetGain`: read the GAIN register, unpack bit 0 as channel 0
and bit 1 as channel 1 of `buff[0]`, select by `channel == 0`. -/
def MCP47FEB_GetGain (dac : MCP47FEB_TypeDef) (dev : Dev) (channel : Int) :
    Nat × List Ev :=
  let r := _ReadAddr dac GAIN_REG dev
  let _gain0 := r.1.1 &&& 0x01
  let _gain1 := (r.1.1 &&& 0x02) >>> 1
  ((if channel = 0 then _gain0 else _gain1), r.2)

/-- Model of `MCP47FEB_SetGain`: addressed write of `val0 | val1 << 1` to the GAIN
register (nonnegative `int` values modelled). -/
def MCP47FEB_SetGain (dac : MCP47FEB_TypeDef) (val0 val1 : Nat) : List Ev :=
  _WriteAddr dac GAIN_REG (val0 ||| (val1 <<< 1))

/-- Model of `MCP47FEB_GetGainEp`: like `MCP47FEB_GetGain`, reading the EEPROM mirror
bank. -/
def MCP47FEB_GetGainEp (dac : MCP47FEB_TypeDef) (dev : Dev) (channel : Int) :
    Nat × List Ev :=
  let r := _ReadEpAddr dac GAIN_REG dev
  let _gainEp0 := r.1.1 &&& 0x01
  let _gainEp1 := (r.1.1 &&& 0x02) >>> 1
  ((if channel = 0 then _gainEp0 else _gainEp1), r.2)

/-- Model of `MCP47FEB_GetVref`: read the VREF register, unpack bits 0–1 and 2–3 of
`readBuffer[1]`, select by `channel == 0` (the channel parameter is
`uint8_t`). -/
def MCP47FEB_GetVref (dac : MCP47FEB_TypeDef) (dev : Dev) (channel : Nat) :
    Nat × List Ev :=
  let r := _ReadAddr dac VREF_REG dev
  let _intVref0 := r.1.2 &&& 0x03
  let _intVref1 := (r.1.2 &&& 0x0C) >>> 2
  ((if channel = 0 then _intVref0 else _intVref1), r.2)

/-- Model of `MCP47FEB_SetVref`: addressed write of `val0 | val1 << 2` to the VREF
register. -/
def MCP47FEB_SetVref (dac : MCP47FEB_TypeDef) (val0 val1 : Nat) : List Ev :=
  _WriteAddr dac VREF_REG (val0 ||| (val1 <<< 2))

/-- Model of `MCP47FEB_GetVrefEp`: like `MCP47FEB_GetVref`, reading the EEPROM mirror
bank. -/
def MCP47FEB_GetVrefEp (dac : MCP47FEB_TypeDef) (dev : Dev) (channel : Nat) :
    Nat × List Ev :=
  let r := _ReadEpAddr dac VREF_REG dev
  let _intVrefEp0 := r.1.2 &&& 0x03
  let _intVrefEp1 := (r.1.2 &&& 0x0C) >>> 2
  ((if channel = 0 then _intVrefEp0 else _intVrefEp1), r.2)

/-- Model of `MCP47FEB_GetValue`: `_ReadAddr(dac, channel << 3, readBuffer)` — note
the argument is the channel pre-shifted by 3, and `_ReadAddr` shifts its
register argument by 3 again — then `word(readBuffer[0] & 0x0F,
readBuffer[1])`.  The result of `word` on a masked nibble and a byte is
below 2^16, so the `uint16_t` return conversion is the identity. -/
def MCP47FEB_GetValue (dac : MCP47FEB_TypeDef) (dev : Dev) (channel : Nat) :
    Nat × List Ev :=
  let r := _ReadAddr dac ((channel <<< 3) % 256) dev
  (word (r.1.1 &&& 0x0F) r.1.2, r.2)

/-- Model of `MCP47FEB_AnalogWrite`: mask both `uint16_t` inputs to 12 bits, then
fast-write channel 0 and channel 1. -/
def MCP47FEB_AnalogWrite (dac : MCP47FEB_TypeDef) (val0 val1 : Nat) :
    List Ev :=
  let v0 := (val0 % 65536) &&& 0xFFF
  let v1 := (val1 % 65536) &&& 0xFFF
  _FastWrite dac DAC0_REG v0 ++ _FastWrite dac DAC1_REG v1

/-- Model of `MCP47FEB_EEPROMWrite`: snapshot the working registers through the get
accessors and fast-write each snapshot to its EEPROM mirror register, in
program order.  The gain snapshot is left-shifted by 8 bits before
transmission; the vref and power-down snapshots are not. -/
def MCP47FEB_EEPROMWrite (dac : MCP47FEB_TypeDef) (dev : Dev) : List Ev :=
  let g0 := MCP47FEB_GetValue dac dev 0
  let g1 := MCP47FEB_GetValue dac dev 1
  let vref0 := MCP47FEB_GetVref dac dev 0
  let vref1 := MCP47FEB_GetVref dac dev 1
  let gain0 := MCP47FEB_GetGain dac dev 0
  let gain1 := MCP47FEB_GetGain dac dev 1
  let pd0 := MCP47FEB_GetPowerDown dac dev 0
  let pd1 := MCP47FEB_GetPowerDown dac dev 1
  g0.2 ++ _FastWrite dac DAC0_EP_REG g0.1 ++
    g1.2 ++ _FastWrite dac DAC1_EP_REG g1.1 ++
    vref0.2 ++ vref1.2 ++
    _FastWrite dac VREF_EP_REG (vref0.1 ||| (vref1.1 <<< 2)) ++
    gain0.2 ++ gain1.2 ++
    _FastWrite dac GAIN_EP_REG ((gain0.1 ||| (gain1.1 <<< 1)) <<< 8) ++
    pd0.2 ++ pd1.2 ++
    _FastWrite dac PD_EP_REG (pd0.1 ||| (pd1.1 <<< 2))

/-- A 3-byte transmit, i.e. one of the driver's write transactions (reads
transmit a single command byte). -/
def isWriteTx : Ev → Bool
  | Ev.tx _ [_, _, _] => true
  | _ => false

/-- Register file of a simulated device: 16-bit word per register key. -/
def Regs : Type := Nat → Nat

/-- Feed a driver trace to a simulated device's register file: each 3-byte
write `[c, b1, b2]` stores `word b1 b2` under its command byte `c`, which
for the addressed-write framing is the pre-shift register index. -/
def applyWrites (tr : List Ev) (regs : Regs) : Regs :=
  tr.foldl (fun r e =>
    match e with
    | Ev.tx _ [c, b1, b2] => fun k => if k = c then word b1 b2 else r k
    | _ => r) regs

/-- Simulated device that echoes written register bits back on read: a
read-select command byte `cmd` addresses register `(cmd & 0x7F) >>> 3` (the
index field of the streamed-read framing) and the device answers with the
register's high byte then low byte. -/
def echoDev (regs : Regs) : Dev := fun cmd =>
  (regs ((cmd &&& 0x7F) >>> 3) >>> 8, regs ((cmd &&& 0x7F) >>> 3) &&& 0xFF)

/-! ### Shared helper lemmas -/

theorem and_255_eq_mod (a : Nat) : a &&& 0xFF = a % 256 := by
  have h1 : (0xFF : Nat) = 2 ^ 8 - 1 := by norm_num
  rw [h1, Nat.and_pow_two_sub_one_eq_mod]

theorem byte_and_255 {a : Nat} (h : a < 256) : a &&& 0xFF = a := by
  rw [and_255_eq_mod, Nat.mod_eq_of_lt h]

theorem shr_le_of_le {a b : Nat} (n : Nat) (h : a ≤ b) : a >>> n ≤ b >>> n := by
  simp only [Nat.shiftRight_eq_div_pow]
  exact Nat.div_le_div_right h

theorem and_fff_and_ff (a : Nat) : (a &&& 0xFFF) &&& 0xFF = a &&& 0xFF := by
  rw [Nat.and_assoc]
  congr 1

theorem and_fff_shr8_lt (x : Nat) : (x &&& 0xFFF) >>> 8 < 256 := by
  have h1 : x &&& 0xFFF ≤ 0xFFF := Nat.and_le_right
  have h2 : (x &&& 0xFFF) >>> 8 = (x &&& 0xFFF) / 2 ^ 8 := Nat.shiftRight_eq_div_pow _ 8
  norm_num at h2
  omega

theorem word_nibble_lt (a b : Nat) (hb : b < 256) : word (a &&& 0x0F) b < 4096 := by
  have h1 : a &&& 0x0F ≤ 15 := Nat.and_le_right
  have h2 : (a &&& 0x0F) <<< 8 < 2 ^ 12 := by
    rw [Nat.shiftLeft_eq]
    norm_num
    omega
  have h3 : b < 2 ^ 12 := by norm_num; omega
  have h4 := Nat.or_lt_two_pow h2 h3
  have h5 : (2 : Nat) ^ 12 = 4096 := by norm_num
  rw [h5] at h4
  simpa [word] using h4

theorem getValue_lt (dac : MCP47FEB_TypeDef) (dev : Dev) (channel : Nat) :
    (MCP47FEB_GetValue dac dev channel).1 < 4096 := by
  unfold MCP47FEB_GetValue
  exact word_nibble_lt _ _ (Nat.mod_lt _ (by norm_num))

theorem fastWrite_bytes (dac : MCP47FEB_TypeDef) (r v : Nat) (hr : r < 32)
    (hv : v < 65536) :
    _FastWrite dac r v =
      [Ev.tx (dac.devAddr <<< 1)
        [(r <<< 3) ||| 0x00, (v >>> 8) &&& 0xFF, v &&& 0xFF]] := by
  have h1 : r % 256 = r := Nat.mod_eq_of_lt (by omega)
  have h2 : v % 65536 = v := Nat.mod_eq_of_lt hv
  have h3 : r <<< 3 < 256 := by rw [Nat.shiftLeft_eq]; norm_num; omega
  have h4 : (r <<< 3) ||| 0x00 = r <<< 3 := Nat.or_zero _
  simp only [_FastWrite, WRITE, h1, h2, h4, Nat.mod_eq_of_lt h3]

/-! ### Claim theorems -/

/-- C1: the spec says `MCP47FEB_GetValue(dac, 1)` issues a streamed read of
DAC1's own output register, command byte `0x06 | (0x01 << 3) = 0x0E`.  The
code instead transmits `0x46`: `MCP47FEB_GetValue` passes `channel << 3` to
`_ReadAddr`, which shifts by 3 again, so the command byte is
`0x06 | (channel << 6)` and its register-index field selects register
`0x08` — the VREF register — rather than DAC1.  (Channel 0 is unaffected:
both give `0x06`.) -/
theorem getValue_channel1_reads_vref_register :
    (MCP47FEB_GetValue ⟨0x60, 0⟩ (fun _ => (0, 0)) 1).2 =
        [Ev.tx 0xC0 [0x46], Ev.rx 0xC0 2] ∧
    0x46 = READ ||| ((1 <<< 3) <<< 3) ∧
    0x46 ≠ READ ||| (DAC1_REG <<< 3) ∧
    0x46 >>> 3 = VREF_REG ∧
    READ ||| (DAC1_REG <<< 3) = 0x0E ∧
    (MCP47FEB_GetValue ⟨0x60, 0⟩ (fun _ => (0, 0)) 0).2 =
        [Ev.tx 0xC0 [0x06], Ev.rx 0xC0 2] := by
  decide

/-- C3: for every handle and every 7-bit address `a`, `MCP47FEB_LockSALCK`
leaves the handle unchanged and issues exactly the transaction
`MCP47FEB_UnlockSALCK` would issue through a temporary handle carrying `a`
and the caller's transport: an addressed write of data byte 0 under command
byte `SALCK | UNLOCK_SALCK = 0xD2` — not the lock constant
`SALCK | LOCK_SALCK = 0xD4`. -/
theorem lockSALCK_duplicates_unlock (dac : MCP47FEB_TypeDef) (a : Nat)
    (h : a < 128) :
    MCP47FEB_LockSALCK dac a =
        (dac, (MCP47FEB_UnlockSALCK { devAddr := a, hi2c := dac.hi2c }).2) ∧
    (MCP47FEB_LockSALCK dac a).2 = [Ev.tx (a <<< 1) [0xD2, 0, 0]] ∧
    SALCK ||| UNLOCK_SALCK = 0xD2 ∧
    SALCK ||| LOCK_SALCK = 0xD4 := by
  have ha : a % 256 = a := Nat.mod_eq_of_lt (by omega)
  refine ⟨?_, ?_, by decide, by decide⟩
  · simp [MCP47FEB_LockSALCK, MCP47FEB_UnlockSALCK, ha]
  · simp [MCP47FEB_LockSALCK, MCP47FEB_UnlockSALCK, _WriteAddr, ha, WRITE,
      SALCK, UNLOCK_SALCK, GAIN_REG]

theorem lockSALCK_duplicates_unlock_witness :
    MCP47FEB_LockSALCK ⟨0x60, 7⟩ 0x61 =
        (⟨0x60, 7⟩, (MCP47FEB_UnlockSALCK { devAddr := 0x61, hi2c := 7 }).2) ∧
    (MCP47FEB_LockSALCK ⟨0x60, 7⟩ 0x61).2 = [Ev.tx 0xC2 [0xD2, 0, 0]] ∧
    SALCK ||| UNLOCK_SALCK = 0xD2 ∧
    SALCK ||| LOCK_SALCK = 0xD4 :=
  lockSALCK_duplicates_unlock ⟨0x60, 7⟩ 0x61 (by decide)

/-- C4: for every register index in {DAC0, DAC1, VREF, PD, GAIN, WL}, the
streamed-read framing transmits the single command byte `0x06 | (index << 3)`
and the non-volatile-mirror variant transmits that same value OR `0x80`;
both then receive exactly 2 bytes. -/
theorem read_framing_command_bytes (dac : MCP47FEB_TypeDef) (dev : Dev)
    (REG : Nat)
    (h : REG ∈ [DAC0_REG, DAC1_REG, VREF_REG, PD_REG, GAIN_REG, WL_REG]) :
    (_ReadAddr dac REG dev).2 =
        [Ev.tx (dac.devAddr <<< 1) [0x06 ||| (REG <<< 3)],
         Ev.rx (dac.devAddr <<< 1) 2] ∧
    (_ReadEpAddr dac REG dev).2 =
        [Ev.tx (dac.devAddr <<< 1) [(0x06 ||| (REG <<< 3)) ||| 0x80],
         Ev.rx (dac.devAddr <<< 1) 2] := by
  fin_cases h <;> exact ⟨rfl, rfl⟩

theorem read_framing_command_bytes_witness :
    GAIN_REG ∈ [DAC0_REG, DAC1_REG, VREF_REG, PD_REG, GAIN_REG, WL_REG] ∧
    ((_ReadAddr ⟨0x60, 0⟩ GAIN_REG (fun _ => (0, 0))).2 =
        [Ev.tx 0xC0 [0x56], Ev.rx 0xC0 2] ∧
     (_ReadEpAddr ⟨0x60, 0⟩ GAIN_REG (fun _ => (0, 0))).2 =
        [Ev.tx 0xC0 [0xD6], Ev.rx 0xC0 2]) :=
  ⟨by decide,
   read_framing_command_bytes ⟨0x60, 0⟩ (fun _ => (0, 0)) GAIN_REG (by decide)⟩

/-- C5: for every register index `r` (all of the driver's register indices
are below 0x20) and every 16-bit value `v`, the fast-write framing transmits
exactly the 3 bytes `(r << 3) | 0x00`, `(v >> 8) & 0xFF`, `v & 0xFF`, in
that order. -/
theorem fastWrite_three_bytes (dac : MCP47FEB_TypeDef) (r v : Nat)
    (hr : r < 32) (hv : v < 65536) :
    _FastWrite dac r v =
      [Ev.tx (dac.devAddr <<< 1)
        [(r <<< 3) ||| 0x00, (v >>> 8) &&& 0xFF, v &&& 0xFF]] :=
  fastWrite_bytes dac r v hr hv

theorem fastWrite_three_bytes_witness :
    _FastWrite ⟨0x60, 0⟩ GAIN_EP_REG 0xABCD =
      [Ev.tx 0xC0 [0xD0, 0xAB, 0xCD]] := by
  have h := fastWrite_three_bytes ⟨0x60, 0⟩ GAIN_EP_REG 0xABCD (by decide)
    (by decide)
  simpa using h

/-- C6: for every data byte `d` and register index below 0x100, the
addressed-write framing transmits 3 bytes with command byte
`register | 0x00` (no shift); for the GAIN register (index 0x0A) the data
byte is placed at payload position 1 with position 2 zero, and for every
other register index it is placed at position 2 with position 1 zero. -/
theorem writeAddr_data_placement (dac : MCP47FEB_TypeDef) (REG d : Nat)
    (hR : REG < 256) (hd : d < 256) :
    _WriteAddr dac REG d =
      if REG = GAIN_REG then
        [Ev.tx (dac.devAddr <<< 1) [REG ||| 0x00, d, 0]]
      else
        [Ev.tx (dac.devAddr <<< 1) [REG ||| 0x00, 0, d]] := by
  have h1 : REG % 256 = REG := Nat.mod_eq_of_lt hR
  have h2 : d % 256 = d := Nat.mod_eq_of_lt hd
  simp only [_WriteAddr, h1, h2, WRITE]

theorem writeAddr_data_placement_witness :
    _WriteAddr ⟨0x60, 0⟩ 0x0A 0x37 = [Ev.tx 0xC0 [0x0A, 0x37, 0]] ∧
    _WriteAddr ⟨0x60, 0⟩ 0x09 0x37 = [Ev.tx 0xC0 [0x09, 0, 0x37]] := by
  have h1 := writeAddr_data_placement ⟨0x60, 0⟩ 0x0A 0x37 (by decide) (by decide)
  have h2 := writeAddr_data_placement ⟨0x60, 0⟩ 0x09 0x37 (by decide) (by decide)
  exact ⟨by simpa using h1, by simpa using h2⟩

/-- C9: `MCP47FEB_Init` stores the given address (as `uint8_t`) and
transport into the handle, regardless of the handle's previous contents,
with no bus I/O (empty trace) and no failure path; `MCP47FEB_LockSALCK` and
`MCP47FEB_UnlockSALCK` leave the caller's handle unchanged, and the lock
operation's bus transaction is the one a temporary handle carrying the new
address and the caller's transport would issue. -/
theorem init_binds_handle_never_mutated (dac dac' : MCP47FEB_TypeDef)
    (devAddr hi2c addr : Nat) :
    MCP47FEB_Init dac devAddr hi2c =
        ({ devAddr := devAddr % 256, hi2c := hi2c }, ([] : List Ev)) ∧
    (MCP47FEB_LockSALCK dac' addr).1 = dac' ∧
    (MCP47FEB_UnlockSALCK dac').1 = dac' ∧
    (MCP47FEB_LockSALCK dac' addr).2 =
        (MCP47FEB_UnlockSALCK { devAddr := addr % 256, hi2c := dac'.hi2c }).2 :=
  ⟨rfl, rfl, rfl, rfl⟩

/-- C7: `MCP47FEB_AnalogWrite` masks each 16-bit input to 12 bits and issues
exactly two fast writes: the masked `val0` to register DAC0 (command byte
`0x00`), then the masked `val1` to register DAC1 (command byte `0x08`). -/
theorem analogWrite_truncates_to_12_bits (dac : MCP47FEB_TypeDef)
    (val0 val1 : Nat) (h0 : val0 < 65536) (h1 : val1 < 65536) :
    MCP47FEB_AnalogWrite dac val0 val1 =
      [Ev.tx (dac.devAddr <<< 1)
         [0x00, (val0 &&& 0xFFF) >>> 8, val0 &&& 0xFF],
       Ev.tx (dac.devAddr <<< 1)
         [0x08, (val1 &&& 0xFFF) >>> 8, val1 &&& 0xFF]] := by
  have e0 : val0 % 65536 = val0 := Nat.mod_eq_of_lt h0
  have e1 : val1 % 65536 = val1 := Nat.mod_eq_of_lt h1
  have w0 := fastWrite_bytes dac DAC0_REG (val0 &&& 0xFFF) (by decide)
    (lt_of_le_of_lt Nat.and_le_right (by norm_num))
  have w1 := fastWrite_bytes dac DAC1_REG (val1 &&& 0xFFF) (by decide)
    (lt_of_le_of_lt Nat.and_le_right (by norm_num))
  have s0 : ((val0 &&& 0xFFF) >>> 8) &&& 0xFF = (val0 &&& 0xFFF) >>> 8 :=
    byte_and_255 (and_fff_shr8_lt val0)
  have s1 : ((val1 &&& 0xFFF) >>> 8) &&& 0xFF = (val1 &&& 0xFFF) >>> 8 :=
    byte_and_255 (and_fff_shr8_lt val1)
  have r0 : DAC0_REG <<< 3 ||| 0x00 = 0x00 := by decide
  have r1 : DAC1_REG <<< 3 ||| 0x00 = 0x08 := by decide
  simp only [MCP47FEB_AnalogWrite, e0, e1, w0, w1, s0, s1, and_fff_and_ff, r0,
    r1, List.append_eq, List.cons_append, List.nil_append]

theorem analogWrite_truncates_witness :
    MCP47FEB_AnalogWrite ⟨0x60, 0⟩ 4096 5000 =
      [Ev.tx 0xC0 [0x00, 0, 0], Ev.tx 0xC0 [0x08, 0x03, 0x88]] ∧
    4096 &&& 0xFFF = 0 ∧ 5000 &&& 0xFFF = 0x1388 &&& 0xFFF := by
  have h := analogWrite_truncates_to_12_bits ⟨0x60, 0⟩ 4096 5000 (by decide)
    (by decide)
  exact ⟨by simpa using h, by decide, by decide⟩

theorem pd_pack_unpack (v0 v1 : Nat) (h0 : v0 ≤ 3) (h1 : v1 ≤ 3) :
    (v0 ||| v1 <<< 2) &&& 0x03 = v0 ∧
    ((v0 ||| v1 <<< 2) &&& 0x0C) >>> 2 = v1 ∧
    v0 ||| v1 <<< 2 < 256 := by
  interval_cases v0 <;> interval_cases v1 <;> decide

/-- C8: against the simulated echo device, `MCP47FEB_SetPowerDown(v0, v1)`
followed by `MCP47FEB_GetPowerDown` returns `v0` for channel 0 and `v1` for
channel 1, for all `v0, v1` in 0..3. -/
theorem setPowerDown_getPowerDown_roundtrip (dac : MCP47FEB_TypeDef)
    (regs : Regs) (v0 v1 : Nat) (h0 : v0 ≤ 3) (h1 : v1 ≤ 3) :
    (MCP47FEB_GetPowerDown dac
        (echoDev (applyWrites (MCP47FEB_SetPowerDown dac v0 v1) regs)) 0).1 =
      v0 ∧
    (MCP47FEB_GetPowerDown dac
        (echoDev (applyWrites (MCP47FEB_SetPowerDown dac v0 v1) regs)) 1).1 =
      v1 := by
  obtain ⟨e0, e1, elt⟩ := pd_pack_unpack v0 v1 h0 h1
  have hmod : (v0 ||| v1 <<< 2) % 256 = v0 ||| v1 <<< 2 := Nat.mod_eq_of_lt elt
  have hk : ((78 : Nat) &&& 127) >>> 3 = 9 := by decide
  constructor <;>
    simp [MCP47FEB_GetPowerDown, MCP47FEB_SetPowerDown, _ReadAddr, _WriteAddr,
      echoDev, applyWrites, word, PD_REG, GAIN_REG, READ, WRITE, hmod, hk,
      byte_and_255 elt, e0, e1]

theorem setPowerDown_getPowerDown_roundtrip_witness :
    (MCP47FEB_GetPowerDown ⟨0x60, 0⟩
        (echoDev (applyWrites (MCP47FEB_SetPowerDown ⟨0x60, 0⟩ 0 1)
          (fun _ => 0))) 0).1 = 0 ∧
    (MCP47FEB_GetPowerDown ⟨0x60, 0⟩
        (echoDev (applyWrites (MCP47FEB_SetPowerDown ⟨0x60, 0⟩ 0 1)
          (fun _ => 0))) 1).1 = 1 :=
  setPowerDown_getPowerDown_roundtrip ⟨0x60, 0⟩ (fun _ => 0) 0 1 (by decide)
    (by decide)

theorem two_bit_field_le (x : Nat) : (x &&& 0x0C) >>> 2 ≤ 3 := by
  have h1 := shr_le_of_le 2 (Nat.and_le_right : x &&& 0x0C ≤ 0x0C)
  have h2 : (0x0C : Nat) >>> 2 = 3 := by decide
  omega

theorem one_bit_field_le (x : Nat) : (x &&& 0x02) >>> 1 ≤ 1 := by
  have h1 := shr_le_of_le 1 (Nat.and_le_right : x &&& 0x02 ≤ 0x02)
  have h2 : (0x02 : Nat) >>> 1 = 1 := by decide
  omega

/-- C10: in every per-channel get accessor, any channel argument other than
0 — negative `int` values included — selects the channel-1 bit-field, only
channel 0 selects the channel-0 field, and the returned value fits the field
width (at most 3 for the 2-bit fields, at most 1 for gain). -/
theorem channel_dispatch_and_field_width (dac : MCP47FEB_TypeDef)
    (dev : Dev) :
    (∀ c : Int, c ≠ 0 →
      (MCP47FEB_GetPowerDown dac dev c).1 =
          ((_ReadAddr dac PD_REG dev).1.2 &&& 0x0C) >>> 2 ∧
      (MCP47FEB_GetPowerDownEp dac dev c).1 =
          ((_ReadEpAddr dac PD_REG dev).1.2 &&& 0x0C) >>> 2 ∧
      (MCP47FEB_GetGain dac dev c).1 =
          ((_ReadAddr dac GAIN_REG dev).1.1 &&& 0x02) >>> 1 ∧
      (MCP47FEB_GetGainEp dac dev c).1 =
          ((_ReadEpAddr dac GAIN_REG dev).1.1 &&& 0x02) >>> 1) ∧
    (∀ n : Nat, n ≠ 0 →
      (MCP47FEB_GetVref dac dev n).1 =
          ((_ReadAddr dac VREF_REG dev).1.2 &&& 0x0C) >>> 2 ∧
      (MCP47FEB_GetVrefEp dac dev n).1 =
          ((_ReadEpAddr dac VREF_REG dev).1.2 &&& 0x0C) >>> 2) ∧
    ((MCP47FEB_GetPowerDown dac dev 0).1 =
        (_ReadAddr dac PD_REG dev).1.2 &&& 0x03 ∧
     (MCP47FEB_GetPowerDownEp dac dev 0).1 =
        (_ReadEpAddr dac PD_REG dev).1.2 &&& 0x03 ∧
     (MCP47FEB_GetGain dac dev 0).1 =
        (_ReadAddr dac GAIN_REG dev).1.1 &&& 0x01 ∧
     (MCP47FEB_GetGainEp dac dev 0).1 =
        (_ReadEpAddr dac GAIN_REG dev).1.1 &&& 0x01 ∧
     (MCP47FEB_GetVref dac dev 0).1 =
        (_ReadAddr dac VREF_REG dev).1.2 &&& 0x03 ∧
     (MCP47FEB_GetVrefEp dac dev 0).1 =
        (_ReadEpAddr dac VREF_REG dev).1.2 &&& 0x03) ∧
    (∀ c : Int,
      (MCP47FEB_GetPowerDown dac dev c).1 ≤ 3 ∧
      (MCP47FEB_GetPowerDownEp dac dev c).1 ≤ 3 ∧
      (MCP47FEB_GetGain dac dev c).1 ≤ 1 ∧
      (MCP47FEB_GetGainEp dac dev c).1 ≤ 1) ∧
    (∀ n : Nat,
      (MCP47FEB_GetVref dac dev n).1 ≤ 3 ∧
      (MCP47FEB_GetVrefEp dac dev n).1 ≤ 3) := by
  refine ⟨?_, ?_, ⟨rfl, rfl, rfl, rfl, rfl, rfl⟩, ?_, ?_⟩
  · intro c hc
    refine ⟨?_, ?_, ?_, ?_⟩ <;>
      simp [MCP47FEB_GetPowerDown, MCP47FEB_GetPowerDownEp, MCP47FEB_GetGain,
        MCP47FEB_GetGainEp, hc]
  · intro n hn
    constructor <;> simp [MCP47FEB_GetVref, MCP47FEB_GetVrefEp, hn]
  · intro c
    refine ⟨?_, ?_, ?_, ?_⟩ <;>
      · simp only [MCP47FEB_GetPowerDown, MCP47FEB_GetPowerDownEp,
          MCP47FEB_GetGain, MCP47FEB_GetGainEp]
        split
        · exact Nat.and_le_right
        · first
          | exact two_bit_field_le _
          | exact one_bit_field_le _
  · intro n
    constructor <;>
      · simp only [MCP47FEB_GetVref, MCP47FEB_GetVrefEp]
        split
        · exact Nat.and_le_right
        · exact two_bit_field_le _

theorem channel_dispatch_and_field_width_witness :
    (MCP47FEB_GetPowerDown ⟨0x60, 0⟩ (fun _ => (0x55, 0x66)) (-5)).1 =
      ((_ReadAddr ⟨0x60, 0⟩ PD_REG (fun _ => (0x55, 0x66))).1.2 &&& 0x0C) >>>
        2 :=
  ((channel_dispatch_and_field_width ⟨0x60, 0⟩ (fun _ => (0x55, 0x66))).1 (-5)
    (by decide)).1

theorem getVref_le (dac : MCP47FEB_TypeDef) (dev : Dev) (channel : Nat) :
    (MCP47FEB_GetVref dac dev channel).1 ≤ 3 := by
  simp only [MCP47FEB_GetVref]
  split
  · exact Nat.and_le_right
  · exact two_bit_field_le _

theorem getGain_le (dac : MCP47FEB_TypeDef) (dev : Dev) (channel : Int) :
    (MCP47FEB_GetGain dac dev channel).1 ≤ 1 := by
  simp only [MCP47FEB_GetGain]
  split
  · exact Nat.and_le_right
  · exact one_bit_field_le _

theorem getPowerDown_le (dac : MCP47FEB_TypeDef) (dev : Dev) (channel : Int) :
    (MCP47FEB_GetPowerDown dac dev channel).1 ≤ 3 := by
  simp only [MCP47FEB_GetPowerDown]
  split
  · exact Nat.and_le_right
  · exact two_bit_field_le _

theorem pack2_lt {a b : Nat} (ha : a ≤ 3) (hb : b ≤ 3) : a ||| b <<< 2 < 16 := by
  have h1 : a < 2 ^ 4 := by norm_num; omega
  have h2 : b <<< 2 < 2 ^ 4 := by rw [Nat.shiftLeft_eq]; norm_num; omega
  have h3 := Nat.or_lt_two_pow h1 h2
  norm_num at h3
  exact h3

theorem pack1_lt {a b : Nat} (ha : a ≤ 1) (hb : b ≤ 1) : a ||| b <<< 1 < 4 := by
  have h1 : a < 2 ^ 2 := by norm_num; omega
  have h2 : b <<< 1 < 2 ^ 2 := by rw [Nat.shiftLeft_eq]; norm_num; omega
  have h3 := Nat.or_lt_two_pow h1 h2
  norm_num at h3
  exact h3

theorem fastWrite_dacval (dac : MCP47FEB_TypeDef) (r x : Nat) (hr : r < 32)
    (hx : x < 4096) :
    _FastWrite dac r x =
      [Ev.tx (dac.devAddr <<< 1) [(r <<< 3) ||| 0x00, x >>> 8, x &&& 0xFF]] := by
  rw [fastWrite_bytes dac r x hr (by omega)]
  have h1 : x >>> 8 < 256 := by
    rw [Nat.shiftRight_eq_div_pow]
    norm_num
    omega
  rw [byte_and_255 h1]

theorem fastWrite_smallval (dac : MCP47FEB_TypeDef) (r x : Nat) (hr : r < 32)
    (hx : x < 256) :
    _FastWrite dac r x =
      [Ev.tx (dac.devAddr <<< 1) [(r <<< 3) ||| 0x00, 0, x]] := by
  rw [fastWrite_bytes dac r x hr (by omega)]
  have h1 : x >>> 8 = 0 := by
    rw [Nat.shiftRight_eq_div_pow]
    norm_num
    omega
  rw [h1, Nat.zero_and, byte_and_255 hx]

theorem fastWrite_gainshift (dac : MCP47FEB_TypeDef) (r p : Nat) (hr : r < 32)
    (hp : p < 256) :
    _FastWrite dac r (p <<< 8) =
      [Ev.tx (dac.devAddr <<< 1) [(r <<< 3) ||| 0x00, p, 0]] := by
  have hv : p <<< 8 < 65536 := by rw [Nat.shiftLeft_eq]; norm_num; omega
  rw [fastWrite_bytes dac r (p <<< 8) hr hv]
  have h1 : (p <<< 8) >>> 8 = p := by
    rw [Nat.shiftLeft_eq, Nat.shiftRight_eq_div_pow]
    norm_num
  have h2 : (p <<< 8) &&& 0xFF = 0 := by
    rw [and_255_eq_mod, Nat.shiftLeft_eq]
    norm_num
  rw [h1, h2, byte_and_255 hp]

theorem filter_getValue (dac : MCP47FEB_TypeDef) (dev : Dev) (ch : Nat) :
    List.filter isWriteTx (MCP47FEB_GetValue dac dev ch).2 = [] := rfl

theorem filter_getVref (dac : MCP47FEB_TypeDef) (dev : Dev) (ch : Nat) :
    List.filter isWriteTx (MCP47FEB_GetVref dac dev ch).2 = [] := rfl

theorem filter_getGain (dac : MCP47FEB_TypeDef) (dev : Dev) (ch : Int) :
    List.filter isWriteTx (MCP47FEB_GetGain dac dev ch).2 = [] := rfl

theorem filter_getPowerDown (dac : MCP47FEB_TypeDef) (dev : Dev) (ch : Int) :
    List.filter isWriteTx (MCP47FEB_GetPowerDown dac dev ch).2 = [] := rfl

theorem filter_write3 (a b0 b1 b2 : Nat) :
    List.filter isWriteTx [Ev.tx a [b0, b1, b2]] = [Ev.tx a [b0, b1, b2]] := rfl

theorem filter_fastWrite (dac : MCP47FEB_TypeDef) (r v : Nat) :
    List.filter isWriteTx (_FastWrite dac r v) = _FastWrite dac r v := rfl

/-- C2: `MCP47FEB_EEPROMWrite` issues exactly 5 fast-write transactions, to
registers DAC0_EP (command byte `0x10 << 3 = 0x80`), DAC1_EP (`0x88`),
VREF_EP (`0xC0`), GAIN_EP (`0xD0`), PD_EP (`0xC8`), in that order, each
payload carrying the value of the corresponding get accessor: the two DAC
values, `vref0 | vref1 << 2`, `(gain0 | gain1 << 1) << 8` (the gain word is
left-shifted by 8 bits, so the packed gains land in the transmitted high
byte and the low byte is 0, unlike vref and power-down which land in the
low byte), and `pd0 | pd1 << 2`. -/
theorem eepromWrite_five_fast_writes (dac : MCP47FEB_TypeDef) (dev : Dev) :
    (MCP47FEB_EEPROMWrite dac dev).filter isWriteTx =
      [Ev.tx (dac.devAddr <<< 1)
        [0x80, (MCP47FEB_GetValue dac dev 0).1 >>> 8,
         (MCP47FEB_GetValue dac dev 0).1 &&& 0xFF],
       Ev.tx (dac.devAddr <<< 1)
        [0x88, (MCP47FEB_GetValue dac dev 1).1 >>> 8,
         (MCP47FEB_GetValue dac dev 1).1 &&& 0xFF],
       Ev.tx (dac.devAddr <<< 1)
        [0xC0, 0,
         (MCP47FEB_GetVref dac dev 0).1 ||| (MCP47FEB_GetVref dac dev 1).1 <<< 2],
       Ev.tx (dac.devAddr <<< 1)
        [0xD0,
         (MCP47FEB_GetGain dac dev 0).1 ||| (MCP47FEB_GetGain dac dev 1).1 <<< 1,
         0],
       Ev.tx (dac.devAddr <<< 1)
        [0xC8, 0,
         (MCP47FEB_GetPowerDown dac dev 0).1 |||
           (MCP47FEB_GetPowerDown dac dev 1).1 <<< 2]] := by
  have hvp : (MCP47FEB_GetVref dac dev 0).1 |||
      (MCP47FEB_GetVref dac dev 1).1 <<< 2 < 256 :=
    lt_trans (pack2_lt (getVref_le dac dev 0) (getVref_le dac dev 1))
      (by norm_num)
  have hgp : (MCP47FEB_GetGain dac dev 0).1 |||
      (MCP47FEB_GetGain dac dev 1).1 <<< 1 < 256 :=
    lt_trans (pack1_lt (getGain_le dac dev 0) (getGain_le dac dev 1))
      (by norm_num)
  have hpp : (MCP47FEB_GetPowerDown dac dev 0).1 |||
      (MCP47FEB_GetPowerDown dac dev 1).1 <<< 2 < 256 :=
    lt_trans (pack2_lt (getPowerDown_le dac dev 0) (getPowerDown_le dac dev 1))
      (by norm_num)
  have w1 := fastWrite_dacval dac DAC0_EP_REG _ (by decide) (getValue_lt dac dev 0)
  have w2 := fastWrite_dacval dac DAC1_EP_REG _ (by decide) (getValue_lt dac dev 1)
  have w3 := fastWrite_smallval dac VREF_EP_REG _ (by decide) hvp
  have w4 := fastWrite_gainshift dac GAIN_EP_REG _ (by decide) hgp
  have w5 := fastWrite_smallval dac PD_EP_REG _ (by decide) hpp
  have r1 : DAC0_EP_REG <<< 3 ||| 0x00 = 0x80 := by decide
  have r2 : DAC1_EP_REG <<< 3 ||| 0x00 = 0x88 := by decide
  have r3 : VREF_EP_REG <<< 3 ||| 0x00 = 0xC0 := by decide
  have r4 : GAIN_EP_REG <<< 3 ||| 0x00 = 0xD0 := by decide
  have r5 : PD_EP_REG <<< 3 ||| 0x00 = 0xC8 := by decide
  simp only [MCP47FEB_EEPROMWrite, List.filter_append, filter_getValue,
    filter_getVref, filter_getGain, filter_getPowerDown, filter_fastWrite,
    filter_write3, w1, w2, w3, w4, w5, r1, r2, r3, r4, r5, List.nil_append,
    List.append_nil, List.cons_append, List.append_assoc]
  simp [List.filter_cons, List.filter_append, isWriteTx, filter_getValue,
    filter_getVref, filter_getGain, filter_getPowerDown]
